import Mathlib

/-!
Verification of the plotsr layout engine (plotsr/scripts/plotsr.py) against
its specification. The alignment table, the orientation normalizer, the
chromosome-order validation, the chromosome grouper, the CLI
mutual-exclusion checks and the inter-chromosomal axis-length computation
are embedded as executable Lean definitions, translated line by line from
the Python source; the theorems below settle the spec claims about them.
-/

/-- One row of an alignment table, as produced by readsyriout/readbedout:
columns achr, astart, aend, bchr, bstart, bend, type. Coordinates are
Python integers, modelled by Int. -/
structure AlnRow where
  achr : String
  astart : Int
  aend : Int
  bchr : String
  bstart : Int
  bend : Int
  type : String
deriving DecidableEq, Repr

/-- p is an initial segment of l (on character lists). -/
def charsStartWith : List Char → List Char → Bool
  | [], _ => true
  | _ :: _, [] => false
  | a :: ps, b :: ls => a = b && charsStartWith ps ls

/-- p occurs as a contiguous segment of l (on character lists). -/
def charsContains : List Char → List Char → Bool
  | [], p => p.isEmpty
  | a :: ls, p => charsStartWith p (a :: ls) || charsContains ls p

/-- Python substring containment: pat in s. -/
def strContains (s pat : String) : Bool :=
  charsContains s.data pat.data

/-- Line 183: invindex selects rows with INV in type (substring test), which
covers INV, INVTR and INVDP. -/
def isInv (r : AlnRow) : Bool :=
  strContains r.type "INV"

/-- Lines 190-192: the three column assignments applied to one inverted row.
Each assignment reads the columns as updated by the previous one:
bstart := bstart + bend; bend := bstart - bend; bstart := bstart - bend. -/
def invSwapRow (r : AlnRow) : AlnRow :=
  let s1 := r.bstart + r.bend
  let e1 := s1 - r.bend
  let s2 := s1 - e1
  { r with bstart := s2, bend := e1 }

/-- Line 184: True is in the set g of booleans (bstart < bend) taken over the
inverted rows, i.e. some inverted row has bstart < bend. -/
def hasAsc (df : List AlnRow) : Bool :=
  df.any (fun r => isInv r && decide (r.bstart < r.bend))

/-- Line 184: False is in the set g, i.e. some inverted row has
bstart >= bend. -/
def hasDesc (df : List AlnRow) : Bool :=
  df.any (fun r => isInv r && ! decide (r.bstart < r.bend))

/-- Line 186: the fatal message for a file mixing both orientations. -/
def inconsistentMsg (fname : String) : String :=
  "Inconsistent coordinates in input file " ++ fname ++
    ". For INV, INVTR, INVDUP annotations, either bstart < bend for all annotations or bstart > bend for all annotations. Mixing is not permitted. Exiting."

/-- Lines 190-192 applied to the whole table: the assignments touch exactly
the rows selected by invindex. -/
def invertRows (df : List AlnRow) : List AlnRow :=
  df.map (fun r => if isInv r then invSwapRow r else r)

/-- Lines 182-193, the body of the per-file orientation loop: g having both
booleans is a fatal error; a file where False is in g is left untouched
(continue); otherwise the swap assignments run on the inverted rows. -/
def invertFileCoords (fname : String) (df : List AlnRow) :
    Except String (List AlnRow) :=
  if hasAsc df && hasDesc df then
    Except.error (inconsistentMsg fname)
  else if hasDesc df then
    Except.ok df
  else
    Except.ok (invertRows df)

/-- A concrete INV row with the given query coordinates, for concrete
evaluations. -/
def rowINV (bs be : Int) : AlnRow :=
  { achr := "chr1", astart := 1, aend := 1000, bchr := "chr1",
    bstart := bs, bend := be, type := "INV" }

/-- A concrete SYN row on the given reference chromosome. -/
def synRow (c : String) : AlnRow :=
  { achr := c, astart := 1, aend := 10, bchr := c,
    bstart := 1, bend := 10, type := "SYN" }

/-- Python str.strip: whitespace characters removed from both ends. -/
def isSpaceChar (c : Char) : Bool :=
  c = ' ' || c = '\t' || c = '\n' || c = '\x0d' || c = '\x0c' || c = '\x0b'

/-- Python line.strip() on the model of a file line. -/
def pyStrip (s : String) : String :=
  String.mk (((s.data.dropWhile isSpaceChar).reverse.dropWhile isSpaceChar).reverse)

/-- Line 130: cs = set(unique(alignments[0][1][achr])), modelled as the
duplicate-free list of achr values of the first alignment table (only
membership and size of cs are ever used). -/
def chromSet (df : List AlnRow) : List String :=
  (df.map (fun r => r.achr)).dedup

/-- Line 139: the fatal message for a chrord line naming an unknown
chromosome. -/
def chrordUnknownMsg (c chrordName alnName : String) : String :=
  "Chromosome " ++ c ++ " in " ++ chrordName ++
    " is not a chromosome in alignment file " ++ alnName ++ ". Exiting."

/-- Line 145: the fatal message for a chrord line count differing from the
chromosome-set size. -/
def chrordMismatchMsg (chrordName alnName : String) : String :=
  "Number of chromosomes in " ++ chrordName ++
    " is different from number of chromosomes in alignment file " ++ alnName ++
    ". Either list the order of ALL chromosomes in CHRORD file or enter selected chromosomes after --chr. Exiting."

/-- Lines 135-141: the per-line loop over the chrord file. Each line is
stripped; a line outside cs is an immediate fatal error; otherwise the line
is appended to chrs. -/
def chrordLoop (chrordName alnName : String) (cs : List String) :
    List String → Except String (List String)
  | [] => Except.ok []
  | line :: rest =>
    let c := pyStrip line
    if c ∈ cs then
      (chrordLoop chrordName alnName cs rest).map (fun l => c :: l)
    else
      Except.error (chrordUnknownMsg c chrordName alnName)

/-- Lines 134-146: read the chrord file (its lines given as ls), then check
that the number of collected chromosomes equals the size of cs. -/
def readChrord (chrordName alnName : String) (cs : List String)
    (ls : List String) : Except String (List String) :=
  match chrordLoop chrordName alnName cs ls with
  | Except.error e => Except.error e
  | Except.ok chrs =>
    if chrs.length = cs.length then Except.ok chrs
    else Except.error (chrordMismatchMsg chrordName alnName)

/-- The message of an uncaught Python KeyError for key k. -/
def keyErrMsg (k : String) : String :=
  "KeyError: " ++ k

/-- A Python dict lookup d[k] on an association-list model of the homolog
map: a missing key aborts the program with an uncaught KeyError naming the
key (line 154 has no handler around `chrids[i][1][cur]`). -/
def dictLookup (d : List (String × String)) (k : String) :
    Except String String :=
  match d.lookup k with
  | some v => Except.ok v
  | none => Except.error (keyErrMsg k)

/-- Lines 150-157: build one chromosome group. cg starts as [c]; each hop i
looks the current chromosome up in the i-th homolog map and appends the
result. -/
def buildGroup (maps : List (List (String × String))) (c : String) :
    Except String (List String) :=
  match maps with
  | [] => Except.ok [c]
  | m :: rest =>
    match dictLookup m c with
    | Except.error e => Except.error e
    | Except.ok n => (buildGroup rest n).map (fun g => c :: g)

/-- The grouper applied to chrids, the list of (genome-pair file name,
homolog map) pairs in genome order; only the maps enter the chain walk. -/
def buildGroupFromFiles (chrids : List (String × List (String × String)))
    (c : String) : Except String (List String) :=
  buildGroup (chrids.map (fun p => p.2)) c

/-- The CLI arguments involved in the mutual-exclusion checks of lines
47-68, plus the alignment-file lists read at lines 116-127. -/
structure CliArgs where
  sr : Option (List String)
  bp : Option (List String)
  chr : Option (List String)
  chrord : Option String
  reg : Option String
  rtr : Bool
deriving DecidableEq, Repr

/-- Observable events of the run prefix: a fatal exit, the config read
(line 94), and the parse of one alignment file (readsyriout/readbedout at
lines 119/125). -/
inductive TraceEvent where
  | exited (msg : String)
  | readCfg
  | readAlign (fname : String)
deriving DecidableEq, Repr

/-- Lines 47-127 of plotsr as an event trace: the five mutual-exclusion
checks run in source order, each exiting immediately on violation; only
after all pass does the run read the config and then parse each alignment
file (the --sr list if given, else the --bp list). -/
def argcheckTrace (a : CliArgs) : List TraceEvent :=
  if a.sr.isNone && a.bp.isNone then
    [TraceEvent.exited "No structural annotation file provided. Use --sr or -bp to provide paths to input files. Exiting."]
  else if a.sr.isSome && a.bp.isSome then
    [TraceEvent.exited "Cannot use both --sr and --bp. Please enter a single file type for all input structural annotation files. Use a converter to reformat BEDPE/syri.out files. Exiting."]
  else if a.chr.isSome && a.reg.isSome then
    [TraceEvent.exited "Both --chr and --reg are provided. Only one parameter can be provided at a time. Exiting."]
  else if a.chr.isSome && a.chrord.isSome then
    [TraceEvent.exited "Both --chr and --chrord are provided. Only one parameter can be provided at a time. Exiting."]
  else if a.rtr && a.reg.isNone then
    [TraceEvent.exited "Cannot use --rtr without --reg. Exiting."]
  else
    TraceEvent.readCfg ::
      ((match a.sr with
        | some fs => fs
        | none => a.bp.getD []).map TraceEvent.readAlign)

/-- An argument configuration violating one of the five mutual-exclusion
rules of the claim: --sr with --bp, neither --sr nor --bp, --chr with
--reg, --chr with --chrord, or --rtr without --reg. -/
def violatesExclusion (a : CliArgs) : Bool :=
  (a.sr.isNone && a.bp.isNone) || (a.sr.isSome && a.bp.isSome) ||
    (a.chr.isSome && a.reg.isSome) || (a.chr.isSome && a.chrord.isSome) ||
    (a.rtr && a.reg.isNone)

/-- Python int() applied to a quotient, modelled on rationals: truncation
toward zero. -/
def pyInt (q : Rat) : Int :=
  if 0 ≤ q then ⌊q⌋ else ⌈q⌉

/-- Python max() over a list of integers: an empty sequence is a fatal
ValueError. -/
def pyListMax : List Int → Except String Int
  | [] => Except.error "ValueError: max() arg is an empty sequence"
  | x :: xs => Except.ok (xs.foldl max x)

/-- chrlengths[i][1][cid] at line 222: index i into chrlengths (each entry a
pair of genome name and chromosome-length dict), then dict lookup of cid. -/
def genomeChromLen (chrlengths : List (String × List (String × Int)))
    (i : Nat) (cid : String) : Except String Int :=
  match chrlengths.get? i with
  | none => Except.error "IndexError: list index out of range"
  | some gl =>
    match gl.2.lookup cid with
    | some v => Except.ok v
    | none => Except.error (keyErrMsg cid)

/-- Line 222, inner comprehension: max over enumerate(cg) of
chrlengths[i][1][cid]. -/
def groupMaxLen (chrlengths : List (String × List (String × Int)))
    (cg : List String) : Except String Int :=
  (cg.enum.mapM (fun ic => genomeChromLen chrlengths ic.1 ic.2)).bind
    pyListMax

/-- Line 222: maxchr in alignment modes L, R, C — the sum over all
chromosome groups of the group's longest member. -/
def maxchrAligned (chrlengths : List (String × List (String × Int)))
    (chrgrps : List (String × List String)) : Except String Int :=
  ((chrgrps.map (fun p => p.2)).mapM (groupMaxLen chrlengths)).map
    (fun l => l.foldl (· + ·) 0)

/-- Line 225: maxchr in equidistant mode — the largest per-genome total
chromosome length. -/
def maxchrEquidistant (chrlengths : List (String × List (String × Int))) :
    Except String Int :=
  pyListMax (chrlengths.map (fun g => (g.2.map (fun p => p.2)).foldl (· + ·) 0))

/-- Lines 220-225: maxchr as dispatched on cfg itxalign. -/
def itxMaxchr (itxalign : String)
    (chrlengths : List (String × List (String × Int)))
    (chrgrps : List (String × List String)) : Except String Int :=
  if itxalign ∈ (["L", "R", "C"] : List String) then
    maxchrAligned chrlengths chrgrps
  else
    maxchrEquidistant chrlengths

/-- Line 226: maxl = int(maxchr/(1 - (MCHR*(len(chrgrps) - 1)))), with the
float arithmetic modelled exactly on rationals and a zero denominator the
fatal ZeroDivisionError it is in Python. -/
def itxMaxl (itxalign : String) (MCHR : Rat)
    (chrlengths : List (String × List (String × Int)))
    (chrgrps : List (String × List String)) : Except String Int :=
  (itxMaxchr itxalign chrlengths chrgrps).bind (fun maxchr =>
    let d : Rat := 1 - MCHR * ((chrgrps.length : Rat) - 1)
    if d = 0 then Except.error "ZeroDivisionError: float division by zero"
    else Except.ok (pyInt ((maxchr : Rat) / d)))

deriving instance DecidableEq for Except

theorem invSwapRow_eq_swap (r : AlnRow) :
    invSwapRow r = { r with bstart := r.bend, bend := r.bstart } := by
  cases r
  simp only [invSwapRow, AlnRow.mk.injEq, and_true, true_and]
  omega

theorem isInv_invSwapRow (r : AlnRow) : isInv (invSwapRow r) = isInv r := rfl

theorem invertRows_eq_self (df : List AlnRow)
    (h : ∀ r ∈ df, isInv r = false) : invertRows df = df := by
  unfold invertRows
  induction df with
  | nil => rfl
  | cons a l ih =>
    simp only [List.map_cons, List.cons.injEq]
    constructor
    · rw [h a (List.mem_cons_self a l)]
      simp
    · exact ih (fun r hr => h r (List.mem_cons_of_mem a hr))

theorem charsStartWith_append (p l : List Char) :
    charsStartWith p (p ++ l) = true := by
  induction p with
  | nil => rfl
  | cons a ps ih => simp [charsStartWith, ih]

theorem charsContains_of_startWith (l p : List Char)
    (h : charsStartWith p l = true) : charsContains l p = true := by
  cases l with
  | nil =>
    cases p with
    | nil => rfl
    | cons b ps => simp [charsStartWith] at h
  | cons a ls => simp [charsContains, h]

theorem charsContains_cons (a : Char) (ls p : List Char)
    (h : charsContains ls p = true) : charsContains (a :: ls) p = true := by
  simp [charsContains, h]

theorem charsContains_append_left (pre l p : List Char)
    (h : charsContains l p = true) : charsContains (pre ++ l) p = true := by
  induction pre with
  | nil => simpa using h
  | cons a ps ih => exact charsContains_cons a (ps ++ l) p ih

theorem strContains_pre_mid (pre mid : String) :
    strContains (pre ++ mid) mid = true := by
  unfold strContains
  rw [String.data_append]
  apply charsContains_append_left
  apply charsContains_of_startWith
  have := charsStartWith_append mid.data []
  simpa using this

theorem strContains_pre_mid_post (pre mid post : String) :
    strContains (pre ++ mid ++ post) mid = true := by
  unfold strContains
  rw [String.data_append, String.data_append, List.append_assoc]
  apply charsContains_append_left
  apply charsContains_of_startWith
  exact charsStartWith_append mid.data post.data

theorem hasAsc_iff (df : List AlnRow) :
    hasAsc df = true ↔ ∃ r ∈ df, isInv r = true ∧ r.bstart < r.bend := by
  simp [hasAsc, List.any_eq_true]

theorem hasDesc_iff (df : List AlnRow) :
    hasDesc df = true ↔ ∃ r ∈ df, isInv r = true ∧ ¬ r.bstart < r.bend := by
  simp [hasDesc, List.any_eq_true]

theorem hasAsc_eq_false (df : List AlnRow) :
    hasAsc df = false ↔ ∀ r ∈ df, isInv r = true → ¬ r.bstart < r.bend := by
  rw [← Bool.not_eq_true, hasAsc_iff]
  push_neg
  constructor
  · intro h r hr hi
    exact (h r hr) hi
  · intro h r hr
    exact h r hr

theorem hasDesc_eq_false (df : List AlnRow) :
    hasDesc df = false ↔ ∀ r ∈ df, isInv r = true → r.bstart < r.bend := by
  rw [← Bool.not_eq_true, hasDesc_iff]
  push_neg
  exact Iff.rfl

theorem invertRows_eq_plainswap (df : List AlnRow) :
    invertRows df = df.map (fun r => if isInv r then
      { r with bstart := r.bend, bend := r.bstart } else r) := by
  unfold invertRows
  apply List.map_congr_left
  intro r _
  by_cases h : isInv r = true
  · simp [h, invSwapRow_eq_swap]
  · simp [h]

theorem no_inv_of_not_asc_not_desc (l : List AlnRow)
    (h1 : hasAsc l = false) (h2 : hasDesc l = false) :
    ∀ r ∈ l, isInv r = false := by
  intro r hr
  by_contra hinv
  rw [Bool.not_eq_false] at hinv
  by_cases hlt : r.bstart < r.bend
  · exact ((hasAsc_eq_false l).mp h1 r hr hinv) hlt
  · exact hlt ((hasDesc_eq_false l).mp h2 r hr hinv)

/-- C1 counterexample: a file whose inverted records all have bstart > bend
(the pairs (500,100) and (300,50) of the claim) is returned UNCHANGED by the
normalizer (the loop hits the continue branch), so afterwards an inverted
record still violates bstart < bend, and no swap to (100,500)/(50,300)
happened. -/
theorem c1_cex_descending_file_kept :
    invertFileCoords "f1.out" [rowINV 500 100, rowINV 300 50] =
      Except.ok [rowINV 500 100, rowINV 300 50] ∧
    isInv (rowINV 500 100) = true ∧
    ¬ (rowINV 500 100).bstart < (rowINV 500 100).bend := by
  refine ⟨by decide, by decide, by decide⟩

/-- C1 (amended): the Orientation Normalizer canonicalizes inverted records
to bstart ≥ bend, the opposite direction of the claim: after it runs every
inverted record satisfies bend ≤ bstart; a file whose inverted records all
have bstart < bend has each such pair swapped; and the output is the input
either unchanged or with exactly the inverted rows' bstart/bend exchanged —
no other field of any record changes. -/
theorem c1_normalizer_canonical_orientation (fname : String)
    (df out : List AlnRow) (h : invertFileCoords fname df = Except.ok out) :
    (∀ r ∈ out, isInv r = true → r.bend ≤ r.bstart) ∧
    ((∀ r ∈ df, isInv r = true → r.bstart < r.bend) →
      out = df.map (fun r => if isInv r then
        { r with bstart := r.bend, bend := r.bstart } else r)) ∧
    (out = df ∨ out = df.map (fun r => if isInv r then
        { r with bstart := r.bend, bend := r.bstart } else r)) := by
  unfold invertFileCoords at h
  cases hD : hasDesc df with
  | false =>
    simp only [hD, Bool.and_false, Bool.false_eq_true, if_false,
      Except.ok.injEq] at h
    refine ⟨?_, fun _ => h.symm.trans (invertRows_eq_plainswap df),
      Or.inr (h.symm.trans (invertRows_eq_plainswap df))⟩
    intro r hr hi
    rw [← h, invertRows_eq_plainswap df] at hr
    obtain ⟨r0, hr0, hrq⟩ := List.mem_map.mp hr
    by_cases h0 : isInv r0 = true
    · rw [if_pos h0] at hrq
      have hlt : r0.bstart < r0.bend :=
        (hasDesc_eq_false df).mp hD r0 hr0 h0
      rw [← hrq]
      exact Int.le_of_lt hlt
    · rw [if_neg h0] at hrq
      rw [← hrq] at hi
      exact absurd hi h0
  | true =>
    cases hA : hasAsc df with
    | true =>
      simp only [hD, hA, Bool.and_self, if_true] at h
      exact absurd h (by simp)
    | false =>
      simp only [hD, hA, Bool.false_and, Bool.false_eq_true, if_false,
        if_true, Except.ok.injEq] at h
      refine ⟨?_, ?_, Or.inl h.symm⟩
      · intro r hr hi
        rw [← h] at hr
        exact Int.not_lt.mp ((hasAsc_eq_false df).mp hA r hr hi)
      · intro hall
        obtain ⟨r, hr, hi, hlt⟩ := (hasDesc_iff df).mp hD
        exact absurd (hall r hr hi) hlt

/-- C1 witness: the file whose inverted records are ascending, (100,500),
is swapped by the normalizer to (500,100). -/
theorem c1_normalizer_canonical_orientation_witness :
    (∀ r ∈ ([rowINV 500 100] : List AlnRow), isInv r = true → r.bend ≤ r.bstart) ∧
    ((∀ r ∈ ([rowINV 100 500] : List AlnRow), isInv r = true → r.bstart < r.bend) →
      ([rowINV 500 100] : List AlnRow) = [rowINV 100 500].map (fun r => if isInv r then
        { r with bstart := r.bend, bend := r.bstart } else r)) ∧
    (([rowINV 500 100] : List AlnRow) = [rowINV 100 500] ∨
      ([rowINV 500 100] : List AlnRow) = [rowINV 100 500].map (fun r => if isInv r then
        { r with bstart := r.bend, bend := r.bstart } else r)) :=
  c1_normalizer_canonical_orientation "f1.out" [rowINV 100 500]
    [rowINV 500 100] (by decide)

/-- C6: orientation normalization is idempotent — on any table whose
inversion orientation is file-wide consistent (exactly the tables on which
the step succeeds), running the step again returns the once-normalized
table unchanged. -/
theorem c6_normalizer_idempotent (fname : String) (df out : List AlnRow)
    (h : invertFileCoords fname df = Except.ok out) :
    invertFileCoords fname out = Except.ok out := by
  unfold invertFileCoords at h ⊢
  cases hD : hasDesc df with
  | false =>
    simp only [hD, Bool.and_false, Bool.false_eq_true, if_false,
      Except.ok.injEq] at h
    have hA2 : hasAsc out = false := by
      rw [hasAsc_eq_false]
      intro r hr hi
      rw [← h, invertRows_eq_plainswap df] at hr
      obtain ⟨r0, hr0, hrq⟩ := List.mem_map.mp hr
      by_cases h0 : isInv r0 = true
      · rw [if_pos h0] at hrq
        have hlt : r0.bstart < r0.bend :=
          (hasDesc_eq_false df).mp hD r0 hr0 h0
        rw [← hrq]
        simpa using Int.not_lt.mpr (Int.le_of_lt hlt)
      · rw [if_neg h0] at hrq
        rw [← hrq] at hi
        exact absurd hi h0
    rw [hA2, Bool.false_and, if_neg (by simp)]
    cases hD2 : hasDesc out with
    | true => rw [if_pos rfl]
    | false =>
      rw [if_neg (by simp)]
      have hnone : ∀ r ∈ out, isInv r = false :=
        no_inv_of_not_asc_not_desc out hA2 hD2
      rw [invertRows_eq_self out hnone]
  | true =>
    cases hA : hasAsc df with
    | true =>
      simp only [hD, hA, Bool.and_self, if_true] at h
      exact absurd h (by simp)
    | false =>
      simp only [hD, hA, Bool.false_and, Bool.false_eq_true, if_false,
        if_true, Except.ok.injEq] at h
      rw [← h, hA, hD, Bool.false_and, if_neg (by simp), if_pos rfl]

/-- C6 witness: normalizing the already-normalized table of the descending
file (500,100) returns it unchanged. -/
theorem c6_normalizer_idempotent_witness :
    invertFileCoords "f1.out" [rowINV 500 100] =
      Except.ok [rowINV 500 100] :=
  c6_normalizer_idempotent "f1.out" [rowINV 100 500] [rowINV 500 100]
    (by decide)

/-- C7: the arithmetic-exchange sequence of lines 190-192
(bstart := bstart + bend; bend := bstart - bend; bstart := bstart - bend)
is exactly the plain swap of the two integer coordinates, leaving every
other field of the record unchanged. -/
theorem c7_arith_exchange_is_plain_swap (r : AlnRow) :
    invSwapRow r = { r with bstart := r.bend, bend := r.bstart } :=
  invSwapRow_eq_swap r

/-- C8: for each alignment file, the normalizer aborts with the fatal
inconsistent-coordinates message (which names the input file) exactly when
the inverted records (INV, INVTR, INVDP) mix both orientations, i.e. some
record has bstart < bend and some record has bstart not below bend; with
uniform orientation no error is raised. -/
theorem c8_mixed_orientation_fatal (fname : String) (df : List AlnRow) :
    (((∃ r ∈ df, isInv r = true ∧ r.bstart < r.bend) ∧
      (∃ r ∈ df, isInv r = true ∧ ¬ r.bstart < r.bend)) ↔
      invertFileCoords fname df = Except.error (inconsistentMsg fname)) ∧
    strContains (inconsistentMsg fname) fname = true ∧
    (¬ ((∃ r ∈ df, isInv r = true ∧ r.bstart < r.bend) ∧
        (∃ r ∈ df, isInv r = true ∧ ¬ r.bstart < r.bend)) →
      ∃ res, invertFileCoords fname df = Except.ok res) := by
  refine ⟨⟨?_, ?_⟩, strContains_pre_mid_post _ _ _, ?_⟩
  · intro ⟨hasc, hdesc⟩
    unfold invertFileCoords
    rw [if_pos (by rw [(hasAsc_iff df).mpr hasc, (hasDesc_iff df).mpr hdesc]; rfl)]
  · intro h
    unfold invertFileCoords at h
    by_cases hAD : (hasAsc df && hasDesc df) = true
    · rw [Bool.and_eq_true] at hAD
      exact ⟨(hasAsc_iff df).mp hAD.1, (hasDesc_iff df).mp hAD.2⟩
    · rw [if_neg hAD] at h
      by_cases hD : hasDesc df = true
      · rw [if_pos hD] at h
        exact absurd h (by simp)
      · rw [if_neg hD] at h
        exact absurd h (by simp)
  · intro hmix
    unfold invertFileCoords
    have hAD : (hasAsc df && hasDesc df) = false := by
      cases hA : hasAsc df with
      | false => rw [Bool.false_and]
      | true =>
        cases hD : hasDesc df with
        | false => rw [Bool.and_false]
        | true =>
          exact absurd ⟨(hasAsc_iff df).mp hA, (hasDesc_iff df).mp hD⟩ hmix
    rw [hAD, if_neg (by simp)]
    by_cases hD : hasDesc df = true
    · rw [if_pos hD]
      exact ⟨df, rfl⟩
    · rw [if_neg hD]
      exact ⟨invertRows df, rfl⟩

/-- C10: a zero-length inverted record (bstart = bend) counts as the
descending orientation because line 184 compares with strict <, so a file
that also holds an ascending inverted record (bstart < bend) is rejected
with the fatal inconsistent-coordinates error, even when no record has
bstart strictly greater than bend. -/
theorem c10_zero_length_inverted_mixed (fname : String) (df : List AlnRow)
    (h0 : ∃ r ∈ df, isInv r = true ∧ r.bstart = r.bend)
    (h1 : ∃ r ∈ df, isInv r = true ∧ r.bstart < r.bend) :
    invertFileCoords fname df = Except.error (inconsistentMsg fname) := by
  unfold invertFileCoords
  have hD : hasDesc df = true := by
    obtain ⟨r, hr, hi, heq⟩ := h0
    exact (hasDesc_iff df).mpr ⟨r, hr, hi, by rw [heq]; exact lt_irrefl _⟩
  have hA : hasAsc df = true := (hasAsc_iff df).mpr h1
  rw [if_pos (by rw [hA, hD]; rfl)]

/-- C10 witness: the file holding the zero-length inverted record (100,100)
and the ascending inverted record (50,300) — no record has bstart > bend —
is rejected as inconsistent. -/
theorem c10_zero_length_inverted_mixed_witness :
    invertFileCoords "f1.out" [rowINV 100 100, rowINV 50 300] =
      Except.error (inconsistentMsg "f1.out") :=
  c10_zero_length_inverted_mixed "f1.out" [rowINV 100 100, rowINV 50 300]
    ⟨rowINV 100 100, by decide, by decide, by decide⟩
    ⟨rowINV 50 300, by decide, by decide, by decide⟩

theorem chrordLoop_ok_of (chrordName alnName : String) (cs ls : List String)
    (h : ∀ l ∈ ls, pyStrip l ∈ cs) :
    chrordLoop chrordName alnName cs ls = Except.ok (ls.map pyStrip) := by
  induction ls with
  | nil => rfl
  | cons line rest ih =>
    unfold chrordLoop
    rw [if_pos (h line (List.mem_cons_self line rest))]
    rw [ih (fun l hl => h l (List.mem_cons_of_mem line hl))]
    rfl

theorem chrordLoop_ok_inv (chrordName alnName : String)
    (cs ls out : List String)
    (h : chrordLoop chrordName alnName cs ls = Except.ok out) :
    (∀ l ∈ ls, pyStrip l ∈ cs) ∧ out = ls.map pyStrip := by
  induction ls generalizing out with
  | nil =>
    refine ⟨by simp, ?_⟩
    unfold chrordLoop at h
    simpa using (Except.ok.injEq _ _).mp h.symm
  | cons line rest ih =>
    unfold chrordLoop at h
    by_cases hc : pyStrip line ∈ cs
    · rw [if_pos hc] at h
      cases hrest : chrordLoop chrordName alnName cs rest with
      | error e =>
        rw [hrest] at h
        exact absurd h (by simp [Except.map])
      | ok l2 =>
        rw [hrest] at h
        simp only [Except.map, Except.ok.injEq] at h
        obtain ⟨hmem, heq⟩ := ih l2 hrest
        constructor
        · intro l hl
          rcases List.mem_cons.mp hl with hl0 | hl1
          · rw [hl0]; exact hc
          · exact hmem l hl1
        · rw [← h, heq]
          rfl
    · rw [if_neg hc] at h
      exact absurd h (by simp)

/-- C2 counterexample: over the chromosome set of an alignment table with
achr values chr1 and chr2, the chrord file whose lines are chr1 twice is
ACCEPTED by the validation — a duplicate entry is not detected when the
line count happens to match the set size, so the validated file need not be
a permutation of the chromosome set. -/
theorem c2_cex_duplicate_accepted :
    readChrord "chrord.txt" "g1_g2.out"
        (chromSet [synRow "chr1", synRow "chr2"]) ["chr1", "chr1"] =
      Except.ok ["chr1", "chr1"] ∧
    ¬ (["chr1", "chr1"] : List String).Nodup ∧
    ¬ (["chr1", "chr1"] : List String).Perm
        (chromSet [synRow "chr1", synRow "chr2"]) := by
  refine ⟨by decide, by decide, by decide⟩

/-- C2 (amended): the chrord validation accepts exactly the files whose
(stripped) lines all lie in the genome-1 chromosome set and whose line
count equals the set size; an unknown entry or a wrong count is a fatal
error, and every exact permutation is accepted — but a file duplicating one
chromosome while omitting another, keeping the count, is also accepted, so
duplicates alone are not fatal. -/
theorem c2_chrord_validation (chrordName alnName : String)
    (cs ls : List String) :
    ((∃ chrs, readChrord chrordName alnName cs ls = Except.ok chrs) ↔
      ((∀ l ∈ ls, pyStrip l ∈ cs) ∧ ls.length = cs.length)) ∧
    ((ls.map pyStrip).Perm cs →
      readChrord chrordName alnName cs ls = Except.ok (ls.map pyStrip)) := by
  constructor
  · constructor
    · intro ⟨chrs, hc⟩
      unfold readChrord at hc
      split at hc
      · exact absurd hc (by simp)
      · rename_i l2 hrest
        obtain ⟨hmem, heq⟩ := chrordLoop_ok_inv chrordName alnName cs ls l2 hrest
        split at hc
        · rename_i hlen
          refine ⟨hmem, ?_⟩
          rw [heq] at hlen
          simpa using hlen
        · exact absurd hc (by simp)
    · intro ⟨hmem, hlen⟩
      refine ⟨ls.map pyStrip, ?_⟩
      unfold readChrord
      rw [chrordLoop_ok_of chrordName alnName cs ls hmem]
      show (if (ls.map pyStrip).length = cs.length then
          Except.ok (ls.map pyStrip)
        else Except.error (chrordMismatchMsg chrordName alnName)) =
          Except.ok (ls.map pyStrip)
      rw [if_pos (by simpa using hlen)]
  · intro hperm
    have hmem : ∀ l ∈ ls, pyStrip l ∈ cs := by
      intro l hl
      exact hperm.mem_iff.mp (List.mem_map_of_mem pyStrip hl)
    have hlen : (ls.map pyStrip).length = cs.length := hperm.length_eq
    unfold readChrord
    rw [chrordLoop_ok_of chrordName alnName cs ls hmem]
    show (if (ls.map pyStrip).length = cs.length then
        Except.ok (ls.map pyStrip)
      else Except.error (chrordMismatchMsg chrordName alnName)) =
        Except.ok (ls.map pyStrip)
    rw [if_pos hlen]

/-- C3 counterexample: with homolog maps from files g1_g2.out (chr1 to
chrA) and g2_g3.out (empty), the group walk from chr1 dies at the second
hop with a bare KeyError naming only the chromosome chrA; the diagnostic
names neither the offending genome-pair file g2_g3.out nor any other
file. -/
theorem c3_cex_keyerror_names_no_file :
    buildGroupFromFiles
        [("g1_g2.out", [("chr1", "chrA")]), ("g2_g3.out", [])] "chr1" =
      Except.error (keyErrMsg "chrA") ∧
    strContains (keyErrMsg "chrA") "g2_g3.out" = false ∧
    strContains (keyErrMsg "chrA") "g1_g2.out" = false := by
  refine ⟨by decide, by decide, by decide⟩

/-- C3 (amended): a missing homolog-map key during group construction is
fatal, but as an uncaught KeyError whose message names only the missing
chromosome ID (the key of a map that lacks it); no diagnostic names the
offending genome-pair file. -/
theorem c3_missing_homolog_uncaught_keyerror
    (maps : List (List (String × String))) (c e : String)
    (h : buildGroup maps c = Except.error e) :
    ∃ k, e = keyErrMsg k ∧ strContains e k = true ∧
      ∃ m ∈ maps, m.lookup k = none := by
  induction maps generalizing c with
  | nil => exact absurd h (by simp [buildGroup])
  | cons m rest ih =>
    unfold buildGroup dictLookup at h
    cases hl : m.lookup c with
    | none =>
      simp only [hl] at h
      have he : e = keyErrMsg c := ((Except.error.injEq _ _).mp h).symm
      refine ⟨c, he, ?_, m, List.mem_cons_self m rest, hl⟩
      rw [he]
      exact strContains_pre_mid "KeyError: " c
    | some n =>
      simp only [hl] at h
      cases hr : buildGroup rest n with
      | error e2 =>
        simp only [hr, Except.map, Except.error.injEq] at h
        rw [h] at hr
        obtain ⟨k, hk1, hk2, m2, hm2, hl2⟩ := ih n hr
        exact ⟨k, hk1, hk2, m2, List.mem_cons_of_mem m hm2, hl2⟩
      | ok g2 =>
        simp only [hr, Except.map] at h
        exact Except.noConfusion h

/-- C3 witness: the chain from chr1 over the maps (chr1 to chrA) and the
empty map fails with KeyError: chrA, which contains the chromosome ID. -/
theorem c3_missing_homolog_uncaught_keyerror_witness :
    ∃ k, keyErrMsg "chrA" = keyErrMsg k ∧
      strContains (keyErrMsg "chrA") k = true ∧
      ∃ m ∈ [[("chr1", "chrA")], ([] : List (String × String))],
        m.lookup k = none :=
  c3_missing_homolog_uncaught_keyerror [[("chr1", "chrA")], []] "chr1"
    (keyErrMsg "chrA") (by decide)

/-- C4: a chromosome group built from the N-1 homolog maps, when every
lookup on the chain succeeds, has exactly N entries (maps.length + 1 =
genomeCount) and starts with the genome-1 chromosome ID. -/
theorem c4_group_has_genome_count_entries
    (maps : List (List (String × String))) (c : String) (g : List String)
    (h : buildGroup maps c = Except.ok g) :
    g.length = maps.length + 1 ∧ g.head? = some c := by
  induction maps generalizing c g with
  | nil =>
    unfold buildGroup at h
    have : g = [c] := ((Except.ok.injEq _ _).mp h).symm
    rw [this]
    exact ⟨rfl, rfl⟩
  | cons m rest ih =>
    unfold buildGroup dictLookup at h
    cases hl : m.lookup c with
    | none =>
      simp only [hl] at h
      exact Except.noConfusion h
    | some n =>
      simp only [hl] at h
      cases hr : buildGroup rest n with
      | error e =>
        simp only [hr, Except.map] at h
        exact Except.noConfusion h
      | ok g2 =>
        simp only [hr, Except.map, Except.ok.injEq] at h
        obtain ⟨ih1, _⟩ := ih n g2 hr
        rw [← h]
        refine ⟨?_, rfl⟩
        simp [List.length_cons, ih1]

/-- C4 witness: the 3-genome chain of the spec scenario (chr1 to chrA to
chrX) yields the group [chr1, chrA, chrX] with 3 = 2 + 1 entries headed by
chr1. -/
theorem c4_group_has_genome_count_entries_witness :
    (["chr1", "chrA", "chrX"] : List String).length =
      ([[("chr1", "chrA")], [("chrA", "chrX")]] :
        List (List (String × String))).length + 1 ∧
    (["chr1", "chrA", "chrX"] : List String).head? = some "chr1" :=
  c4_group_has_genome_count_entries [[("chr1", "chrA")], [("chrA", "chrX")]]
    "chr1" ["chr1", "chrA", "chrX"] (by decide)

/-- C5: whenever the argument configuration violates one of the five
mutual-exclusion rules (--sr with --bp, neither --sr nor --bp, --chr with
--reg, --chr with --chrord, --rtr without --reg), the run exits during the
validation block of lines 47-68: its trace is a single fatal-exit event and
contains no alignment-file parse event (readsyriout/readbedout are never
reached). -/
theorem c5_exclusion_aborts_before_parsing (a : CliArgs)
    (h : violatesExclusion a = true) :
    (∃ msg, argcheckTrace a = [TraceEvent.exited msg]) ∧
    ∀ f, TraceEvent.readAlign f ∉ argcheckTrace a := by
  unfold argcheckTrace
  by_cases h1 : (a.sr.isNone && a.bp.isNone) = true
  · rw [if_pos h1]
    exact ⟨⟨_, rfl⟩, fun f => by simp⟩
  · rw [if_neg h1]
    by_cases h2 : (a.sr.isSome && a.bp.isSome) = true
    · rw [if_pos h2]
      exact ⟨⟨_, rfl⟩, fun f => by simp⟩
    · rw [if_neg h2]
      by_cases h3 : (a.chr.isSome && a.reg.isSome) = true
      · rw [if_pos h3]
        exact ⟨⟨_, rfl⟩, fun f => by simp⟩
      · rw [if_neg h3]
        by_cases h4 : (a.chr.isSome && a.chrord.isSome) = true
        · rw [if_pos h4]
          exact ⟨⟨_, rfl⟩, fun f => by simp⟩
        · rw [if_neg h4]
          by_cases h5 : (a.rtr && a.reg.isNone) = true
          · rw [if_pos h5]
            exact ⟨⟨_, rfl⟩, fun f => by simp⟩
          · exfalso
            unfold violatesExclusion at h
            rw [Bool.not_eq_true] at h1 h2 h3 h4 h5
            rw [h1, h2, h3, h4, h5] at h
            simp at h

/-- C5 witness: the configuration giving neither --sr nor --bp exits with a
single fatal message and parses no alignment file. -/
theorem c5_exclusion_aborts_before_parsing_witness :
    (∃ msg, argcheckTrace ⟨none, none, none, none, none, false⟩ =
      [TraceEvent.exited msg]) ∧
    ∀ f, TraceEvent.readAlign f ∉
      argcheckTrace ⟨none, none, none, none, none, false⟩ :=
  c5_exclusion_aborts_before_parsing ⟨none, none, none, none, none, false⟩
    (by decide)

/-- C9 counterexample: in equidistant mode with one genome of total length
1 and three chromosome groups, a margin of 0.7 makes the denominator
1 - 0.7*2 negative; the code's int() truncation gives maxl = -2 while the
floor of the same quotient is -3, so maxl does not equal the claimed
floor. -/
theorem c9_cex_truncation_is_not_floor :
    itxMaxchr "E" [("g1", [("c1", 1)])]
        [("a", ["a"]), ("b", ["b"]), ("c", ["c"])] = Except.ok 1 ∧
    itxMaxl "E" (7/10) [("g1", [("c1", 1)])]
        [("a", ["a"]), ("b", ["b"]), ("c", ["c"])] = Except.ok (-2) ∧
    ⌊((1 : Int) : Rat) / (1 - (7/10) *
        ((([("a", ["a"]), ("b", ["b"]), ("c", ["c"])] :
          List (String × List String)).length : Rat) - 1))⌋ = -3 := by
  refine ⟨by decide, ?_, ?_⟩
  · have h1 : itxMaxchr "E" [("g1", [("c1", 1)])]
        [("a", ["a"]), ("b", ["b"]), ("c", ["c"])] = Except.ok 1 := by decide
    unfold itxMaxl
    rw [h1]
    simp only [Except.bind, pyInt, List.length_cons, List.length_nil]
    norm_num
    rw [Int.ceil_eq_iff]
    norm_num
  · simp only [List.length_cons, List.length_nil]
    norm_num

/-- C9 (amended): in ITX mode maxl is the int() truncation toward zero of
maxchr/(1 - margin*(groupCount-1)); whenever maxchr is nonnegative and
margin*(groupCount-1) < 1 (so the denominator is positive, as for any
realistic margin), the truncation coincides with the claimed floor, with
maxchr the sum of each group's longest member in alignment modes L/R/C and
the largest per-genome total length otherwise (equidistant, the
default). -/
theorem c9_itx_axis_length (itxalign : String) (MCHR : Rat)
    (chrlengths : List (String × List (String × Int)))
    (chrgrps : List (String × List String)) (m : Int)
    (hm : itxMaxchr itxalign chrlengths chrgrps = Except.ok m)
    (hm0 : 0 ≤ m)
    (hd : MCHR * ((chrgrps.length : Rat) - 1) < 1) :
    itxMaxl itxalign MCHR chrlengths chrgrps =
      Except.ok ⌊(m : Rat) / (1 - MCHR * ((chrgrps.length : Rat) - 1))⌋ ∧
    (itxalign ∈ (["L", "R", "C"] : List String) →
      itxMaxchr itxalign chrlengths chrgrps =
        maxchrAligned chrlengths chrgrps) ∧
    (itxalign ∉ (["L", "R", "C"] : List String) →
      itxMaxchr itxalign chrlengths chrgrps =
        maxchrEquidistant chrlengths) := by
  have hdpos : (0 : Rat) < 1 - MCHR * ((chrgrps.length : Rat) - 1) := by
    linarith
  refine ⟨?_, ?_, ?_⟩
  · unfold itxMaxl
    rw [hm]
    show (if (1 - MCHR * ((chrgrps.length : Rat) - 1)) = 0 then
        Except.error "ZeroDivisionError: float division by zero"
      else Except.ok (pyInt ((m : Rat) /
        (1 - MCHR * ((chrgrps.length : Rat) - 1))))) = _
    rw [if_neg (ne_of_gt hdpos)]
    have hq : (0 : Rat) ≤ (m : Rat) /
        (1 - MCHR * ((chrgrps.length : Rat) - 1)) :=
      div_nonneg (by exact_mod_cast hm0) (le_of_lt hdpos)
    unfold pyInt
    rw [if_pos hq]
  · intro hmem
    unfold itxMaxchr
    rw [if_pos hmem]
  · intro hmem
    unfold itxMaxchr
    rw [if_neg hmem]

/-- C9 witness: mode L, margin 0.01, one group with members of lengths 10
and 12 in the two genomes — maxchr is 12, the denominator is 1, and maxl is
the floor of 12/1. -/
theorem c9_itx_axis_length_witness :
    (itxMaxl "L" (1/100) [("g1", [("c1", 10)]), ("g2", [("cA", 12)])]
        [("c1", ["c1", "cA"])] =
      Except.ok ⌊((12 : Int) : Rat) / (1 - (1/100) *
        ((([("c1", ["c1", "cA"])] :
          List (String × List String)).length : Rat) - 1))⌋) ∧
    (("L" : String) ∈ (["L", "R", "C"] : List String) →
      itxMaxchr "L" [("g1", [("c1", 10)]), ("g2", [("cA", 12)])]
          [("c1", ["c1", "cA"])] =
        maxchrAligned [("g1", [("c1", 10)]), ("g2", [("cA", 12)])]
          [("c1", ["c1", "cA"])]) ∧
    (("L" : String) ∉ (["L", "R", "C"] : List String) →
      itxMaxchr "L" [("g1", [("c1", 10)]), ("g2", [("cA", 12)])]
          [("c1", ["c1", "cA"])] =
        maxchrEquidistant [("g1", [("c1", 10)]), ("g2", [("cA", 12)])]) :=
  c9_itx_axis_length "L" (1/100) [("g1", [("c1", 10)]), ("g2", [("cA", 12)])]
    [("c1", ["c1", "cA"])] 12 (by decide) (by decide)
    (by norm_num)
